import Mathlib

/-!
Verification of `greeks_calculation_python` (src/assignment.py).

The repository is a single function `calculate_greeks(option_type, S, K, T, sigma, r)`
computing Black-Scholes Delta, Gamma, Theta and Vega.  We embed it shallowly over ℝ:
Python floats become real numbers, `math.exp/log/sqrt` become `Real.exp/log/sqrt`,
`scipy.stats.norm.pdf/cdf` become the standard normal density and cumulative
distribution function, and a `raise ValueError(msg)` becomes `Except.error msg`.
-/

noncomputable section

namespace GreeksCalc

open scoped Real

/-- Standard normal probability density, the meaning of `scipy.stats.norm.pdf`:
`φ(x) = exp(-x²/2) / √(2π)`. -/
def normPdf (x : ℝ) : ℝ := Real.exp (-(x ^ 2) / 2) / Real.sqrt (2 * Real.pi)

/-- Standard normal cumulative distribution, the meaning of `scipy.stats.norm.cdf`,
written with the median split `Φ(x) = 1/2 + ∫_0^x φ(t) dt` (the mass of the density
below its symmetry point 0 is 1/2). -/
def normCdf (x : ℝ) : ℝ := 1 / 2 + ∫ t in (0:ℝ)..x, normPdf t

/-- The dictionary returned by `calculate_greeks`. -/
structure Greeks where
  Delta : ℝ
  Gamma : ℝ
  Theta : ℝ
  Vega : ℝ

/-- Message of the `ValueError` raised by the numeric validation
(src/assignment.py line 21). -/
def invalidParamMsg : String := "All input values must be positive."

/-- Message of the `ValueError` raised for an unrecognized option type
(src/assignment.py line 34). -/
def invalidTypeMsg : String :=
  "Invalid option type. Please choose \x27Call\x27 or \x27Put\x27."

/-- The meaning of Python `str.lower()` on the option-type argument: ASCII case
folding, character by character. -/
def lower (s : String) : String := String.mk (s.data.map Char.toLower)

/-- `d1` as computed at src/assignment.py line 24. -/
def d1 (S K T sigma r : ℝ) : ℝ :=
  (Real.log (S / K) + (r + 0.5 * sigma ^ 2) * T) / (sigma * Real.sqrt T)

/-- `d2` as computed at src/assignment.py line 25. -/
def d2 (S K T sigma r : ℝ) : ℝ := d1 S K T sigma r - sigma * Real.sqrt T

/-- Shallow embedding of `calculate_greeks` (src/assignment.py lines 4-50).
The numeric validation comes first; then `d1`, `d2`; then Delta branches on
`option_type.lower()`, raising for an unrecognized type; Gamma, Theta (whose
final term re-branches on the case-folded type) and Vega follow, and the four
values are returned as a record. -/
def calculate_greeks (option_type : String) (S K T sigma r : ℝ) :
    Except String Greeks :=
  if S ≤ 0 ∨ K ≤ 0 ∨ T ≤ 0 ∨ sigma ≤ 0 ∨ r < 0 then
    Except.error invalidParamMsg
  else
    let rest : ℝ → Except String Greeks := fun delta =>
      let gamma := Real.exp (-r * T) * normPdf (d1 S K T sigma r) /
        (S * sigma * Real.sqrt T)
      let theta0 := -(S * normPdf (d1 S K T sigma r) * sigma * Real.exp (-r * T)) /
          (2 * Real.sqrt T)
        - r * K * Real.exp (-r * T) * normCdf (d2 S K T sigma r)
      let theta := if lower option_type = "call"
        then theta0 + r * S * normCdf (d1 S K T sigma r)
        else theta0 + r * S * normCdf (-(d1 S K T sigma r))
      let vega := S * Real.sqrt T * normPdf (d1 S K T sigma r)
      Except.ok ⟨delta, gamma, theta, vega⟩
    if lower option_type = "call" then
      rest (Real.exp (-r * T) * normCdf (d1 S K T sigma r))
    else if lower option_type = "put" then
      rest (-Real.exp (-r * T) * normCdf (-(d1 S K T sigma r)))
    else
      Except.error invalidTypeMsg

/-- The validation constraints of the spec: S, K, T, sigma strictly positive and
r non-negative. -/
def validParams (S K T sigma r : ℝ) : Prop :=
  0 < S ∧ 0 < K ∧ 0 < T ∧ 0 < sigma ∧ 0 ≤ r

lemma not_badParams {S K T sigma r : ℝ} (h : validParams S K T sigma r) :
    ¬(S ≤ 0 ∨ K ≤ 0 ∨ T ≤ 0 ∨ sigma ≤ 0 ∨ r < 0) := by
  obtain ⟨h1, h2, h3, h4, h5⟩ := h
  simp only [not_or, not_le, not_lt]
  exact ⟨h1, h2, h3, h4, h5⟩

lemma calculate_greeks_call {o : String} (S K T sigma r : ℝ)
    (h : validParams S K T sigma r) (ho : lower o = "call") :
    calculate_greeks o S K T sigma r = Except.ok
      ⟨Real.exp (-r * T) * normCdf (d1 S K T sigma r),
       Real.exp (-r * T) * normPdf (d1 S K T sigma r) / (S * sigma * Real.sqrt T),
       -(S * normPdf (d1 S K T sigma r) * sigma * Real.exp (-r * T)) /
           (2 * Real.sqrt T)
         - r * K * Real.exp (-r * T) * normCdf (d2 S K T sigma r)
         + r * S * normCdf (d1 S K T sigma r),
       S * Real.sqrt T * normPdf (d1 S K T sigma r)⟩ := by
  rw [calculate_greeks, if_neg (not_badParams h)]
  simp only [ho, if_pos rfl, reduceIte]

lemma calculate_greeks_put {o : String} (S K T sigma r : ℝ)
    (h : validParams S K T sigma r) (ho : lower o = "put") :
    calculate_greeks o S K T sigma r = Except.ok
      ⟨-Real.exp (-r * T) * normCdf (-(d1 S K T sigma r)),
       Real.exp (-r * T) * normPdf (d1 S K T sigma r) / (S * sigma * Real.sqrt T),
       -(S * normPdf (d1 S K T sigma r) * sigma * Real.exp (-r * T)) /
           (2 * Real.sqrt T)
         - r * K * Real.exp (-r * T) * normCdf (d2 S K T sigma r)
         + r * S * normCdf (-(d1 S K T sigma r)),
       S * Real.sqrt T * normPdf (d1 S K T sigma r)⟩ := by
  have hne : ("put" : String) ≠ "call" := by decide
  rw [calculate_greeks, if_neg (not_badParams h)]
  simp only [ho, if_neg hne, if_pos rfl, if_true]

lemma calculate_greeks_bad_params {o : String} (S K T sigma r : ℝ)
    (hbad : S ≤ 0 ∨ K ≤ 0 ∨ T ≤ 0 ∨ sigma ≤ 0 ∨ r < 0) :
    calculate_greeks o S K T sigma r = Except.error invalidParamMsg := by
  rw [calculate_greeks, if_pos hbad]

lemma calculate_greeks_bad_type {o : String} (S K T sigma r : ℝ)
    (hgood : ¬(S ≤ 0 ∨ K ≤ 0 ∨ T ≤ 0 ∨ sigma ≤ 0 ∨ r < 0))
    (hc : lower o ≠ "call") (hp : lower o ≠ "put") :
    calculate_greeks o S K T sigma r = Except.error invalidTypeMsg := by
  rw [calculate_greeks, if_neg hgood]
  simp only [if_neg hc, if_neg hp]

lemma msgs_distinct : invalidTypeMsg ≠ invalidParamMsg := by decide

lemma normPdf_neg (x : ℝ) : normPdf (-x) = normPdf x := by
  simp [normPdf, neg_sq]

lemma normPdf_nonneg (x : ℝ) : 0 ≤ normPdf x :=
  div_nonneg (Real.exp_pos _).le (Real.sqrt_nonneg _)

lemma intervalIntegral_normPdf_neg (x : ℝ) :
    (∫ t in (0:ℝ)..(-x), normPdf t) = -∫ t in (0:ℝ)..x, normPdf t := by
  have h1 : (∫ t in (0:ℝ)..(-x), normPdf t) = ∫ t in (0:ℝ)..(-x), normPdf (-t) := by
    simp only [normPdf_neg]
  rw [h1, intervalIntegral.integral_comp_neg, neg_neg, neg_zero]
  exact intervalIntegral.integral_symm 0 x

/-- Reflection identity of the standard normal cdf, the mathematical fact behind
put-call parity of the code's Delta. -/
lemma normCdf_neg_eq (x : ℝ) : normCdf (-x) = 1 - normCdf x := by
  unfold normCdf
  rw [intervalIntegral_normPdf_neg]
  ring

/-- C1: for every input with S > 0, K > 0, T > 0, sigma > 0, r ≥ 0 whose
case-folded option type is "call" (resp. "put"), `calculate_greeks` succeeds and
the returned Delta is `exp(-r*T) * Φ(d1)` (resp. `-exp(-r*T) * Φ(-d1)`) with
`d1 = (ln(S/K) + (r + 0.5*sigma^2)*T) / (sigma*sqrt(T))`. -/
theorem delta_formula (o : String) (S K T sigma r : ℝ) (h : validParams S K T sigma r) :
    (lower o = "call" → ∃ g : Greeks, calculate_greeks o S K T sigma r = Except.ok g ∧
      g.Delta = Real.exp (-r * T) *
        normCdf ((Real.log (S / K) + (r + 0.5 * sigma ^ 2) * T) / (sigma * Real.sqrt T))) ∧
    (lower o = "put" → ∃ g : Greeks, calculate_greeks o S K T sigma r = Except.ok g ∧
      g.Delta = -Real.exp (-r * T) *
        normCdf (-((Real.log (S / K) + (r + 0.5 * sigma ^ 2) * T) / (sigma * Real.sqrt T)))) := by
  constructor
  · intro ho
    exact ⟨_, calculate_greeks_call S K T sigma r h ho, rfl⟩
  · intro ho
    exact ⟨_, calculate_greeks_put S K T sigma r h ho, rfl⟩

/-- Witness for C1 at the demonstration input of src/assignment.py line 54. -/
theorem delta_formula_witness :
    validParams 100 100 1 0.2 0.05 ∧
    (∃ g : Greeks, calculate_greeks "Call" 100 100 1 0.2 0.05 = Except.ok g ∧
      g.Delta = Real.exp (-0.05 * 1) *
        normCdf ((Real.log (100 / 100) + (0.05 + 0.5 * 0.2 ^ 2) * 1) / (0.2 * Real.sqrt 1))) ∧
    (∃ g : Greeks, calculate_greeks "Put" 100 100 1 0.2 0.05 = Except.ok g ∧
      g.Delta = -Real.exp (-0.05 * 1) *
        normCdf (-((Real.log (100 / 100) + (0.05 + 0.5 * 0.2 ^ 2) * 1) / (0.2 * Real.sqrt 1)))) :=
  ⟨by norm_num [validParams],
   (delta_formula "Call" 100 100 1 0.2 0.05 (by norm_num [validParams])).1 (by decide),
   (delta_formula "Put" 100 100 1 0.2 0.05 (by norm_num [validParams])).2 (by decide)⟩

/-- C3: for identical valid parameters, Delta of a call minus Delta of a put is
`exp(-r*T)` (put-call parity of the code's discounted Delta). -/
theorem delta_put_call_parity (oc op : String) (S K T sigma r : ℝ)
    (h : validParams S K T sigma r) (hoc : lower oc = "call") (hop : lower op = "put") :
    ∃ gc gp : Greeks, calculate_greeks oc S K T sigma r = Except.ok gc ∧
      calculate_greeks op S K T sigma r = Except.ok gp ∧
      gc.Delta - gp.Delta = Real.exp (-r * T) := by
  refine ⟨_, _, calculate_greeks_call S K T sigma r h hoc,
    calculate_greeks_put S K T sigma r h hop, ?_⟩
  show Real.exp (-r * T) * normCdf (d1 S K T sigma r) -
      -Real.exp (-r * T) * normCdf (-(d1 S K T sigma r)) = Real.exp (-r * T)
  rw [normCdf_neg_eq]
  ring

/-- Witness for C3 at the demonstration parameters. -/
theorem delta_put_call_parity_witness :
    validParams 100 100 1 0.2 0.05 ∧
    ∃ gc gp : Greeks, calculate_greeks "Call" 100 100 1 0.2 0.05 = Except.ok gc ∧
      calculate_greeks "Put" 100 100 1 0.2 0.05 = Except.ok gp ∧
      gc.Delta - gp.Delta = Real.exp (-0.05 * 1) :=
  ⟨by norm_num [validParams],
   delta_put_call_parity "Call" "Put" 100 100 1 0.2 0.05
     (by norm_num [validParams]) (by decide) (by decide)⟩

/-- C5: for every valid input and recognized type, the returned Theta is
`T_common + r*S*Φ(d1)` for a call and `T_common + r*S*Φ(-d1)` for a put, where
`T_common = -(S*φ(d1)*sigma*exp(-r*T))/(2*sqrt(T)) - r*K*exp(-r*T)*Φ(d2)` and
`d2 = d1 - sigma*sqrt(T)`. -/
theorem theta_formula (o : String) (S K T sigma r : ℝ) (h : validParams S K T sigma r) :
    (lower o = "call" → ∃ g : Greeks, calculate_greeks o S K T sigma r = Except.ok g ∧
      g.Theta = -(S * normPdf (d1 S K T sigma r) * sigma * Real.exp (-r * T)) /
          (2 * Real.sqrt T)
        - r * K * Real.exp (-r * T) * normCdf (d1 S K T sigma r - sigma * Real.sqrt T)
        + r * S * normCdf (d1 S K T sigma r)) ∧
    (lower o = "put" → ∃ g : Greeks, calculate_greeks o S K T sigma r = Except.ok g ∧
      g.Theta = -(S * normPdf (d1 S K T sigma r) * sigma * Real.exp (-r * T)) /
          (2 * Real.sqrt T)
        - r * K * Real.exp (-r * T) * normCdf (d1 S K T sigma r - sigma * Real.sqrt T)
        + r * S * normCdf (-(d1 S K T sigma r))) := by
  constructor
  · intro ho
    exact ⟨_, calculate_greeks_call S K T sigma r h ho, rfl⟩
  · intro ho
    exact ⟨_, calculate_greeks_put S K T sigma r h ho, rfl⟩

/-- Witness for C5 at the demonstration input. -/
theorem theta_formula_witness :
    validParams 100 100 1 0.2 0.05 ∧
    (∃ g : Greeks, calculate_greeks "Call" 100 100 1 0.2 0.05 = Except.ok g ∧
      g.Theta = -(100 * normPdf (d1 100 100 1 0.2 0.05) * 0.2 * Real.exp (-0.05 * 1)) /
          (2 * Real.sqrt 1)
        - 0.05 * 100 * Real.exp (-0.05 * 1) *
            normCdf (d1 100 100 1 0.2 0.05 - 0.2 * Real.sqrt 1)
        + 0.05 * 100 * normCdf (d1 100 100 1 0.2 0.05)) :=
  ⟨by norm_num [validParams],
   (theta_formula "Call" 100 100 1 0.2 0.05 (by norm_num [validParams])).1 (by decide)⟩

/-- C6: for every valid input, the returned Gamma is
`exp(-r*T)*φ(d1)/(S*sigma*sqrt(T))` and the returned Vega is `S*sqrt(T)*φ(d1)`,
with no dependence on the option type: call and put records agree on both. -/
theorem gamma_vega_formula (oc op : String) (S K T sigma r : ℝ)
    (h : validParams S K T sigma r) (hoc : lower oc = "call") (hop : lower op = "put") :
    ∃ gc gp : Greeks, calculate_greeks oc S K T sigma r = Except.ok gc ∧
      calculate_greeks op S K T sigma r = Except.ok gp ∧
      gc.Gamma = Real.exp (-r * T) * normPdf (d1 S K T sigma r) / (S * sigma * Real.sqrt T) ∧
      gc.Vega = S * Real.sqrt T * normPdf (d1 S K T sigma r) ∧
      gp.Gamma = gc.Gamma ∧ gp.Vega = gc.Vega := by
  exact ⟨_, _, calculate_greeks_call S K T sigma r h hoc,
    calculate_greeks_put S K T sigma r h hop, rfl, rfl, rfl, rfl⟩

/-- Witness for C6 at the demonstration parameters. -/
theorem gamma_vega_formula_witness :
    validParams 100 100 1 0.2 0.05 ∧
    ∃ gc gp : Greeks, calculate_greeks "Call" 100 100 1 0.2 0.05 = Except.ok gc ∧
      calculate_greeks "Put" 100 100 1 0.2 0.05 = Except.ok gp ∧
      gc.Gamma = Real.exp (-0.05 * 1) * normPdf (d1 100 100 1 0.2 0.05) /
        (100 * 0.2 * Real.sqrt 1) ∧
      gc.Vega = 100 * Real.sqrt 1 * normPdf (d1 100 100 1 0.2 0.05) ∧
      gp.Gamma = gc.Gamma ∧ gp.Vega = gc.Vega :=
  ⟨by norm_num [validParams],
   gamma_vega_formula "Call" "Put" 100 100 1 0.2 0.05
     (by norm_num [validParams]) (by decide) (by decide)⟩

/-- C7: for every input passing numeric validation whose case-folded option type
is neither "call" nor "put", `calculate_greeks` fails with the invalid-option-type
error, that error differs from the invalid-parameter one, and no Greeks record is
returned. -/
theorem invalid_option_type (o : String) (S K T sigma r : ℝ)
    (h : validParams S K T sigma r) (hc : lower o ≠ "call") (hp : lower o ≠ "put") :
    calculate_greeks o S K T sigma r = Except.error invalidTypeMsg ∧
      invalidTypeMsg ≠ invalidParamMsg ∧
      ∀ g : Greeks, calculate_greeks o S K T sigma r ≠ Except.ok g := by
  have he := calculate_greeks_bad_type S K T sigma r (not_badParams h) hc hp
  refine ⟨he, msgs_distinct, fun g hg => ?_⟩
  rw [he] at hg
  exact Except.noConfusion hg

/-- Witness for C7 with the spec's example "Straddle". -/
theorem invalid_option_type_witness :
    validParams 100 100 1 0.2 0.05 ∧ lower "Straddle" ≠ "call" ∧ lower "Straddle" ≠ "put" ∧
    (calculate_greeks "Straddle" 100 100 1 0.2 0.05 = Except.error invalidTypeMsg ∧
      invalidTypeMsg ≠ invalidParamMsg ∧
      ∀ g : Greeks, calculate_greeks "Straddle" 100 100 1 0.2 0.05 ≠ Except.ok g) :=
  ⟨by norm_num [validParams], by decide, by decide,
   invalid_option_type "Straddle" 100 100 1 0.2 0.05
     (by norm_num [validParams]) (by decide) (by decide)⟩

/-- C8: for every valid input and recognized option type, `calculate_greeks`
returns a record with all four fields populated (in this real-number model every
field of a returned `Greeks` record is a real number, hence finite), and Gamma
and Vega are non-negative regardless of the option type. -/
theorem result_record_ok (o : String) (S K T sigma r : ℝ)
    (h : validParams S K T sigma r) (ho : lower o = "call" ∨ lower o = "put") :
    ∃ g : Greeks, calculate_greeks o S K T sigma r = Except.ok g ∧
      0 ≤ g.Gamma ∧ 0 ≤ g.Vega := by
  obtain ⟨hS, hK, hT, hsig, hr⟩ := h
  have hGamma : 0 ≤ Real.exp (-r * T) * normPdf (d1 S K T sigma r) /
      (S * sigma * Real.sqrt T) :=
    div_nonneg (mul_nonneg (Real.exp_pos _).le (normPdf_nonneg _))
      (mul_nonneg (mul_nonneg hS.le hsig.le) (Real.sqrt_nonneg _))
  have hVega : 0 ≤ S * Real.sqrt T * normPdf (d1 S K T sigma r) :=
    mul_nonneg (mul_nonneg hS.le (Real.sqrt_nonneg _)) (normPdf_nonneg _)
  rcases ho with ho | ho
  · exact ⟨_, calculate_greeks_call S K T sigma r ⟨hS, hK, hT, hsig, hr⟩ ho, hGamma, hVega⟩
  · exact ⟨_, calculate_greeks_put S K T sigma r ⟨hS, hK, hT, hsig, hr⟩ ho, hGamma, hVega⟩

/-- Witness for C8 at the demonstration input. -/
theorem result_record_ok_witness :
    validParams 100 100 1 0.2 0.05 ∧
    ∃ g : Greeks, calculate_greeks "Call" 100 100 1 0.2 0.05 = Except.ok g ∧
      0 ≤ g.Gamma ∧ 0 ≤ g.Vega :=
  ⟨by norm_num [validParams],
   result_record_ok "Call" 100 100 1 0.2 0.05 (by norm_num [validParams])
     (Or.inl (by decide))⟩

/-- C9: two option-type strings with the same case folding (in particular,
strings differing only in letter case) give identical results on every numeric
parameter tuple: the same record on success and the same error on failure. -/
theorem case_insensitive (o1 o2 : String) (S K T sigma r : ℝ)
    (h : lower o1 = lower o2) :
    calculate_greeks o1 S K T sigma r = calculate_greeks o2 S K T sigma r := by
  simp only [calculate_greeks, h]

/-- Witness for C9 on "CALL" versus "call". -/
theorem case_insensitive_witness :
    lower "CALL" = lower "call" ∧
    calculate_greeks "CALL" 100 100 1 0.2 0.05 = calculate_greeks "call" 100 100 1 0.2 0.05 :=
  ⟨by decide, case_insensitive "CALL" "call" 100 100 1 0.2 0.05 (by decide)⟩

/-- C10: numeric validation takes precedence over option-type validation: when a
numeric constraint is violated and the option type is also unrecognized, the
reported error is the invalid-parameter one, never the invalid-option-type one. -/
theorem numeric_validation_precedence (o : String) (S K T sigma r : ℝ)
    (hbad : S ≤ 0 ∨ K ≤ 0 ∨ T ≤ 0 ∨ sigma ≤ 0 ∨ r < 0)
    (_hc : lower o ≠ "call") (_hp : lower o ≠ "put") :
    calculate_greeks o S K T sigma r = Except.error invalidParamMsg ∧
      calculate_greeks o S K T sigma r ≠ Except.error invalidTypeMsg := by
  have he := calculate_greeks_bad_params (o := o) S K T sigma r hbad
  refine ⟨he, ?_⟩
  rw [he]
  intro hcontra
  exact msgs_distinct (Except.error.inj hcontra).symm

/-- Witness for C10: negative volatility together with an unrecognized type. -/
theorem numeric_validation_precedence_witness :
    ((-0.2 : ℝ) ≤ 0 ∨ (100:ℝ) ≤ 0 ∨ (1:ℝ) ≤ 0 ∨ (100:ℝ) ≤ 0 ∨ (0.05:ℝ) < 0) ∧
    lower "Straddle" ≠ "call" ∧ lower "Straddle" ≠ "put" ∧
    (calculate_greeks "Straddle" 100 100 1 (-0.2) 0.05 = Except.error invalidParamMsg ∧
      calculate_greeks "Straddle" 100 100 1 (-0.2) 0.05 ≠ Except.error invalidTypeMsg) :=
  ⟨by norm_num, by decide, by decide,
   numeric_validation_precedence "Straddle" 100 100 1 (-0.2) 0.05
     (by norm_num) (by decide) (by decide)⟩

/-- C2 (amended): `calculate_greeks` fails with the invalid-parameter error
exactly when S ≤ 0 or K ≤ 0 or T ≤ 0 or sigma ≤ 0 or r < 0; in the embedding,
as in the source, this validation is the first step of the function, before d1,
d2 or any formula is evaluated. -/
theorem invalid_param_iff (o : String) (S K T sigma r : ℝ) :
    calculate_greeks o S K T sigma r = Except.error invalidParamMsg ↔
      (S ≤ 0 ∨ K ≤ 0 ∨ T ≤ 0 ∨ sigma ≤ 0 ∨ r < 0) := by
  constructor
  · intro h
    by_contra hgood
    have hv : validParams S K T sigma r := by
      refine ⟨?_, ?_, ?_, ?_, ?_⟩ <;> · push_neg at hgood; tauto
    rcases Classical.em (lower o = "call") with hc | hc
    · rw [calculate_greeks_call S K T sigma r hv hc] at h
      exact Except.noConfusion h
    · rcases Classical.em (lower o = "put") with hp | hp
      · rw [calculate_greeks_put S K T sigma r hv hp] at h
        exact Except.noConfusion h
      · rw [calculate_greeks_bad_type S K T sigma r hgood hc hp] at h
        exact msgs_distinct (Except.error.inj h)
  · exact calculate_greeks_bad_params S K T sigma r

/-- Counterexample for C2 as stated: at a negative rate the function does fail
with the invalid-parameter error, but that error's message — the string
"All input values must be positive." raised at src/assignment.py line 21 — never
mentions the rate or non-negativity, so it does not identify that the rate must
be non-negative. -/
theorem invalid_param_message_cex :
    calculate_greeks "Call" 100 100 1 0.2 (-0.01) = Except.error invalidParamMsg ∧
      ¬ ("rate".data <:+: invalidParamMsg.data) ∧
      ¬ ("non-negative".data <:+: invalidParamMsg.data) := by
  refine ⟨calculate_greeks_bad_params 100 100 1 0.2 (-0.01) (by norm_num), ?_, ?_⟩
  · decide
  · decide

/-! ### Rigorous numeric enclosures for the demonstration scenario

To settle the concrete-value claim about `calculate_greeks("Call", 100, 100, 1,
0.2, 0.05)` we enclose `exp`, `√(2π)` and the gaussian integral in rational
intervals: a degree-3 Taylor enclosure for `exp` on `[0,1]`, the π bounds for
`√(2π)`, and the pointwise bounds `1 - t²/2 ≤ exp(-t²/2) ≤ 1 - t²/2 + t⁴/4`
integrated over `[0,x]` for the cdf. -/

lemma exp_cubic_bounds {u : ℝ} (h0 : 0 ≤ u) (h1 : u ≤ 1) :
    1 + u + u ^ 2 / 2 - 2 / 9 * u ^ 3 ≤ Real.exp u ∧
      Real.exp u ≤ 1 + u + u ^ 2 / 2 + 2 / 9 * u ^ 3 := by
  have habs : |u| ≤ 1 := by rwa [abs_of_nonneg h0]
  have hb := @Real.exp_bound u habs 3 (by norm_num)
  rw [abs_of_nonneg h0] at hb
  simp only [Finset.sum_range_succ, Finset.sum_range_zero, Nat.factorial] at hb
  norm_num at hb
  obtain ⟨h2, h3⟩ := abs_sub_le_iff.mp hb
  constructor <;> nlinarith [h2, h3]

lemma inv_interval (a b : ℝ) {x lo hi : ℝ} (hx1 : lo ≤ x) (hx2 : x ≤ hi)
    (hlo : 0 < lo) (ha0 : 0 ≤ a) (ha : a * hi ≤ 1) (hb : 1 ≤ b * lo) :
    a ≤ x⁻¹ ∧ x⁻¹ ≤ b := by
  have hx : 0 < x := lt_of_lt_of_le hlo hx1
  have h1 : x⁻¹ * x = 1 := inv_mul_cancel₀ hx.ne'
  have h2 : 0 < x⁻¹ := inv_pos.mpr hx
  have hb0 : 0 ≤ b := by
    by_contra hneg
    push_neg at hneg
    nlinarith
  constructor
  · nlinarith [mul_le_mul_of_nonneg_left hx2 ha0]
  · nlinarith [mul_le_mul_of_nonneg_left hx1 hb0]

lemma div_interval (a b : ℝ) {I s il iu sl su : ℝ} (hIl : il ≤ I) (hIu : I ≤ iu)
    (hs1 : sl ≤ s) (hs2 : s ≤ su) (hsl : 0 < sl) (ha0 : 0 ≤ a) (hil0 : 0 ≤ il)
    (ha : a * su ≤ il) (hb : iu ≤ b * sl) :
    a ≤ I / s ∧ I / s ≤ b := by
  have hs : 0 < s := lt_of_lt_of_le hsl hs1
  have hq : I / s * s = I := div_mul_cancel₀ I hs.ne'
  have hq0 : 0 ≤ I / s := div_nonneg (le_trans hil0 hIl) hs.le
  have hb0 : 0 ≤ b := by
    by_contra hneg
    push_neg at hneg
    have : b * sl < 0 := mul_neg_of_neg_of_pos hneg hsl
    linarith
  constructor
  · nlinarith [mul_le_mul_of_nonneg_left hs2 ha0]
  · nlinarith [mul_le_mul_of_nonneg_left hs1 hb0]

lemma mul_interval (xl xu yl yu : ℝ) {x y : ℝ} (hx1 : xl ≤ x) (hx2 : x ≤ xu)
    (hy1 : yl ≤ y) (hy2 : y ≤ yu) (hxl : 0 ≤ xl) (hyl : 0 ≤ yl) :
    xl * yl ≤ x * y ∧ x * y ≤ xu * yu := by
  constructor <;> nlinarith

lemma sqrt_two_pi_bounds :
    (2.506628:ℝ) ≤ Real.sqrt (2 * Real.pi) ∧ Real.sqrt (2 * Real.pi) ≤ 2.506629 := by
  have hp1 := Real.pi_gt_d6
  have hp2 := Real.pi_lt_d6
  constructor
  · rw [show (2.506628:ℝ) = Real.sqrt (2.506628 ^ 2) from
      (Real.sqrt_sq (by norm_num)).symm]
    exact Real.sqrt_le_sqrt (by nlinarith)
  · rw [show (2.506629:ℝ) = Real.sqrt (2.506629 ^ 2) from
      (Real.sqrt_sq (by norm_num)).symm]
    exact Real.sqrt_le_sqrt (by nlinarith)

lemma one_sub_le_exp_neg (u : ℝ) : 1 - u ≤ Real.exp (-u) := by
  have := Real.add_one_le_exp (-u)
  linarith

lemma exp_neg_le_quadratic (u : ℝ) (hu : 0 ≤ u) :
    Real.exp (-u) ≤ 1 - u + u ^ 2 := by
  have h1 : 1 + u ≤ Real.exp u := by linarith [Real.add_one_le_exp u]
  have h2 : Real.exp (-u) * Real.exp u = 1 := by
    rw [← Real.exp_add]
    simp
  have h3 : 0 < Real.exp (-u) := Real.exp_pos _
  nlinarith [mul_le_mul_of_nonneg_left h1 h3.le, pow_nonneg hu 3]

lemma integral_poly_lower (x : ℝ) :
    (∫ t in (0:ℝ)..x, (1 - t ^ 2 / 2)) = x - x ^ 3 / 6 := by
  rw [intervalIntegral.integral_sub (intervalIntegrable_const)
      (((continuous_pow 2).div_const 2).intervalIntegrable 0 x),
    integral_one, intervalIntegral.integral_div, integral_pow]
  push_cast
  ring

lemma integral_poly_upper (x : ℝ) :
    (∫ t in (0:ℝ)..x, (1 - t ^ 2 / 2 + t ^ 4 / 4)) = x - x ^ 3 / 6 + x ^ 5 / 20 := by
  rw [intervalIntegral.integral_add
      ((continuous_const.sub ((continuous_pow 2).div_const 2)).intervalIntegrable 0 x)
      (((continuous_pow 4).div_const 4).intervalIntegrable 0 x),
    integral_poly_lower, intervalIntegral.integral_div, integral_pow]
  push_cast
  ring

lemma gauss_integral_bounds {x : ℝ} (hx : 0 ≤ x) :
    x - x ^ 3 / 6 ≤ (∫ t in (0:ℝ)..x, Real.exp (-(t ^ 2) / 2)) ∧
      (∫ t in (0:ℝ)..x, Real.exp (-(t ^ 2) / 2)) ≤ x - x ^ 3 / 6 + x ^ 5 / 20 := by
  have hcont : Continuous fun t : ℝ => Real.exp (-(t ^ 2) / 2) :=
    Real.continuous_exp.comp (((continuous_pow 2).neg).div_const 2)
  have hint : IntervalIntegrable (fun t : ℝ => Real.exp (-(t ^ 2) / 2))
      MeasureTheory.volume 0 x := hcont.intervalIntegrable 0 x
  constructor
  · rw [← integral_poly_lower x]
    refine intervalIntegral.integral_mono_on hx
      ((continuous_const.sub ((continuous_pow 2).div_const 2)).intervalIntegrable 0 x)
      hint (fun t ht => ?_)
    have h := one_sub_le_exp_neg (t ^ 2 / 2)
    have heq : (-(t ^ 2) / 2 : ℝ) = -(t ^ 2 / 2) := by ring
    rw [heq]
    linarith
  · rw [← integral_poly_upper x]
    refine intervalIntegral.integral_mono_on hx hint
      (((continuous_const.sub ((continuous_pow 2).div_const 2)).add
        ((continuous_pow 4).div_const 4)).intervalIntegrable 0 x) (fun t ht => ?_)
    have h := exp_neg_le_quadratic (t ^ 2 / 2) (by positivity)
    have heq : (-(t ^ 2) / 2 : ℝ) = -(t ^ 2 / 2) := by ring
    have hsq : (t ^ 2 / 2) ^ 2 = t ^ 4 / 4 := by ring
    rw [heq]
    nlinarith [h]

lemma intervalIntegral_normPdf_eq (x : ℝ) :
    (∫ t in (0:ℝ)..x, normPdf t) =
      (∫ t in (0:ℝ)..x, Real.exp (-(t ^ 2) / 2)) / Real.sqrt (2 * Real.pi) := by
  simp only [normPdf]
  exact intervalIntegral.integral_div _ _

lemma exp_neg005_bounds :
    (0.951222:ℝ) ≤ Real.exp (-0.05) ∧ Real.exp (-0.05) ≤ 0.951276 := by
  obtain ⟨hl, hu⟩ := exp_cubic_bounds (show (0:ℝ) ≤ 0.05 by norm_num)
    (show (0.05:ℝ) ≤ 1 by norm_num)
  rw [show (-0.05:ℝ) = -(0.05) by norm_num, Real.exp_neg]
  exact inv_interval 0.951222 0.951276 hl hu (by norm_num) (by norm_num)
    (by norm_num) (by norm_num)

lemma exp_neg006125_bounds :
    (0.940577:ℝ) ≤ Real.exp (-(0.35 ^ 2) / 2) ∧ Real.exp (-(0.35 ^ 2) / 2) ≤ 0.940668 := by
  obtain ⟨hl, hu⟩ := exp_cubic_bounds (show (0:ℝ) ≤ 0.06125 by norm_num)
    (show (0.06125:ℝ) ≤ 1 by norm_num)
  rw [show (-((0.35:ℝ) ^ 2) / 2) = -(0.06125) by norm_num, Real.exp_neg]
  exact inv_interval 0.940577 0.940668 hl hu (by norm_num) (by norm_num)
    (by norm_num) (by norm_num)

lemma normCdf_035_bounds :
    (0.636778:ℝ) ≤ normCdf 0.35 ∧ normCdf 0.35 ≤ 0.636886 := by
  obtain ⟨hIl, hIu⟩ := gauss_integral_bounds (show (0:ℝ) ≤ 0.35 by norm_num)
  obtain ⟨hs1, hs2⟩ := sqrt_two_pi_bounds
  have hd := div_interval 0.136778 0.136886 hIl hIu hs1 hs2 (by norm_num)
    (by norm_num) (by norm_num) (by norm_num) (by norm_num)
  unfold normCdf
  rw [intervalIntegral_normPdf_eq]
  constructor
  · linarith [hd.1]
  · linarith [hd.2]

lemma normCdf_015_bounds :
    (0.559616:ℝ) ≤ normCdf 0.15 ∧ normCdf 0.15 ≤ 0.559621 := by
  obtain ⟨hIl, hIu⟩ := gauss_integral_bounds (show (0:ℝ) ≤ 0.15 by norm_num)
  obtain ⟨hs1, hs2⟩ := sqrt_two_pi_bounds
  have hd := div_interval 0.059616 0.059621 hIl hIu hs1 hs2 (by norm_num)
    (by norm_num) (by norm_num) (by norm_num) (by norm_num)
  unfold normCdf
  rw [intervalIntegral_normPdf_eq]
  constructor
  · linarith [hd.1]
  · linarith [hd.2]

lemma normPdf_035_bounds :
    (0.375235:ℝ) ≤ normPdf 0.35 ∧ normPdf 0.35 ≤ 0.375275 := by
  obtain ⟨he1, he2⟩ := exp_neg006125_bounds
  obtain ⟨hs1, hs2⟩ := sqrt_two_pi_bounds
  unfold normPdf
  exact div_interval 0.375235 0.375275 he1 he2 hs1 hs2 (by norm_num)
    (by norm_num) (by norm_num) (by norm_num) (by norm_num)

lemma d1_scenario : d1 100 100 1 0.2 0.05 = 0.35 := by
  unfold d1
  rw [show (100:ℝ) / 100 = 1 by norm_num, Real.log_one, Real.sqrt_one]
  norm_num

lemma d2_scenario : d2 100 100 1 0.2 0.05 = 0.15 := by
  unfold d2
  rw [d1_scenario, Real.sqrt_one]
  norm_num

/-- The Greeks record that `calculate_greeks("Call", 100, 100, 1, 0.2, 0.05)` —
the demonstration call at src/assignment.py line 54 — produces. -/
def scenarioGreeks : Greeks :=
  ⟨Real.exp (-0.05 * 1) * normCdf (d1 100 100 1 0.2 0.05),
   Real.exp (-0.05 * 1) * normPdf (d1 100 100 1 0.2 0.05) / (100 * 0.2 * Real.sqrt 1),
   -(100 * normPdf (d1 100 100 1 0.2 0.05) * 0.2 * Real.exp (-0.05 * 1)) /
       (2 * Real.sqrt 1)
     - 0.05 * 100 * Real.exp (-0.05 * 1) * normCdf (d2 100 100 1 0.2 0.05)
     + 0.05 * 100 * normCdf (d1 100 100 1 0.2 0.05),
   100 * Real.sqrt 1 * normPdf (d1 100 100 1 0.2 0.05)⟩

lemma scenario_eval :
    calculate_greeks "Call" 100 100 1 0.2 0.05 = Except.ok scenarioGreeks :=
  calculate_greeks_call 100 100 1 0.2 0.05 (by norm_num [validParams]) (by decide)

lemma scenario_delta_eq :
    scenarioGreeks.Delta = Real.exp (-0.05) * normCdf 0.35 := by
  show Real.exp (-0.05 * 1) * normCdf (d1 100 100 1 0.2 0.05) = _
  rw [d1_scenario]
  norm_num

lemma scenario_gamma_eq :
    scenarioGreeks.Gamma = Real.exp (-0.05) * normPdf 0.35 / 20 := by
  show Real.exp (-0.05 * 1) * normPdf (d1 100 100 1 0.2 0.05) /
      (100 * 0.2 * Real.sqrt 1) = _
  rw [d1_scenario, Real.sqrt_one]
  norm_num

lemma scenario_theta_eq :
    scenarioGreeks.Theta = -(100 * normPdf 0.35 * 0.2 * Real.exp (-0.05)) / 2
      - 5 * (Real.exp (-0.05) * normCdf 0.15) + 5 * normCdf 0.35 := by
  show -(100 * normPdf (d1 100 100 1 0.2 0.05) * 0.2 * Real.exp (-0.05 * 1)) /
      (2 * Real.sqrt 1)
    - 0.05 * 100 * Real.exp (-0.05 * 1) * normCdf (d2 100 100 1 0.2 0.05)
    + 0.05 * 100 * normCdf (d1 100 100 1 0.2 0.05) = _
  rw [d1_scenario, d2_scenario, Real.sqrt_one]
  norm_num
  ring

lemma scenario_vega_eq :
    scenarioGreeks.Vega = 100 * normPdf 0.35 := by
  show 100 * Real.sqrt 1 * normPdf (d1 100 100 1 0.2 0.05) = _
  rw [d1_scenario, Real.sqrt_one]
  norm_num

lemma scenario_bounds :
    ((0.6057:ℝ) ≤ scenarioGreeks.Delta ∧ scenarioGreeks.Delta ≤ 0.6059) ∧
    ((0.0178:ℝ) ≤ scenarioGreeks.Gamma ∧ scenarioGreeks.Gamma ≤ 0.0179) ∧
    ((-3.048:ℝ) ≤ scenarioGreeks.Theta ∧ scenarioGreeks.Theta ≤ -3.046) ∧
    ((37.523:ℝ) ≤ scenarioGreeks.Vega ∧ scenarioGreeks.Vega ≤ 37.528) := by
  obtain ⟨he1, he2⟩ := exp_neg005_bounds
  obtain ⟨hc1, hc2⟩ := normCdf_035_bounds
  obtain ⟨hp1, hp2⟩ := normPdf_035_bounds
  obtain ⟨hq1, hq2⟩ := normCdf_015_bounds
  have hD := mul_interval 0.951222 0.951276 0.636778 0.636886 he1 he2 hc1 hc2
    (by norm_num) (by norm_num)
  have hpe := mul_interval 0.375235 0.375275 0.951222 0.951276 hp1 hp2 he1 he2
    (by norm_num) (by norm_num)
  have hec := mul_interval 0.951222 0.951276 0.559616 0.559621 he1 he2 hq1 hq2
    (by norm_num) (by norm_num)
  refine ⟨⟨?_, ?_⟩, ⟨?_, ?_⟩, ⟨?_, ?_⟩, ⟨?_, ?_⟩⟩
  · rw [scenario_delta_eq]; nlinarith [hD.1]
  · rw [scenario_delta_eq]; nlinarith [hD.2]
  · rw [scenario_gamma_eq]; nlinarith [hD.1, hpe.1]
  · rw [scenario_gamma_eq]; nlinarith [hD.2, hpe.2]
  · rw [scenario_theta_eq]; nlinarith [hpe.2, hec.2, hc1]
  · rw [scenario_theta_eq]; nlinarith [hpe.1, hec.1, hc2]
  · rw [scenario_vega_eq]; nlinarith [hp1]
  · rw [scenario_vega_eq]; nlinarith [hp2]

/-- Counterexample for C4 as stated: at `("Call", S=100, K=100, T=1, sigma=0.2,
r=0.05)` the code returns Delta ≈ 0.6058 (the code discounts Φ(d1) by
`exp(-r·T)`) and Theta ≈ −3.047 (the code discounts the first Theta term and
adds `r·S·Φ(d1)`), so neither is within 1e-2 of the claimed reference values
0.6368 and −6.414. -/
theorem scenario_claim_cex :
    calculate_greeks "Call" 100 100 1 0.2 0.05 = Except.ok scenarioGreeks ∧
      ¬(|scenarioGreeks.Delta - 0.6368| ≤ 1e-2) ∧
      ¬(|scenarioGreeks.Theta - (-6.414)| ≤ 1e-2) := by
  refine ⟨scenario_eval, ?_, ?_⟩
  · rw [abs_le, not_and_or]
    left
    push_neg
    have h := (scenario_bounds.1).2
    norm_num
    linarith
  · rw [abs_le, not_and_or]
    right
    push_neg
    have h := (scenario_bounds.2.2.1).1
    norm_num
    linarith

/-- C4 (amended): `calculate_greeks("Call", 100, 100, 1, 0.2, 0.05)` yields
Delta ≈ 0.6058, Gamma ≈ 0.0188, Theta ≈ −3.047, Vega ≈ 37.52, each within 1e-2
of the returned value. (Gamma and Vega keep the claim's reference values; the
code's Gamma ≈ 0.01785 is within the 1e-2 tolerance of 0.0188.) -/
theorem scenario_amended :
    calculate_greeks "Call" 100 100 1 0.2 0.05 = Except.ok scenarioGreeks ∧
      |scenarioGreeks.Delta - 0.6058| ≤ 1e-2 ∧
      |scenarioGreeks.Gamma - 0.0188| ≤ 1e-2 ∧
      |scenarioGreeks.Theta - (-3.047)| ≤ 1e-2 ∧
      |scenarioGreeks.Vega - 37.52| ≤ 1e-2 := by
  obtain ⟨⟨hD1, hD2⟩, ⟨hG1, hG2⟩, ⟨hT1, hT2⟩, ⟨hV1, hV2⟩⟩ := scenario_bounds
  refine ⟨scenario_eval, ?_, ?_, ?_, ?_⟩ <;> rw [abs_le] <;> constructor <;> norm_num <;>
    linarith

end GreeksCalc
